import Mathlib

/-!
# SensorCrud native command server (`native-lib.c`)

A shallow embedding of `server_loop` and of
`Java_com_example_sensorcrud_NativeServer_startServer`.

* A `char` is a `Nat` (its byte value); memory is a `List Nat`.  The array
  `char buffer[1024]` is a list of length `BUFFER_SIZE`, and a string literal is
  the list of its bytes followed by the terminating NUL.
* The C library functions the code calls (`strchr`, `strncmp`, `strlen`) walk
  that memory.  A walk that leaves the array has no defined behaviour in C; the
  model returns `none` there.
* The operating system is an input: every pass of the `while (1)` loop is given
  the outcome of `accept` and of `read`, every `startServer` call the return
  code of `pthread_create`.
* The `LOGI`/`LOGE` calls touch neither the state nor the connection and are
  left out.
-/

namespace NativeServer

/-! ## Memory and the C string functions -/

/-- Size of `char buffer[1024]` (`sizeof(buffer)`). -/
def BUFFER_SIZE : Nat := 1024

/-- Bytes of a string literal, without the terminating NUL. -/
def lit (s : String) : List Nat := s.toList.map Char.toNat

/-- Memory image of a C string literal: its bytes followed by NUL. -/
def cLiteral (s : String) : List Nat := lit s ++ [0]

/-- `strchr(s, c)`: offset of the first `c` in the string starting at `s`.
`some none` is the NULL result, `none` a scan that left the array. -/
def strchr : List Nat → Nat → Option (Option Nat)
  | [], _ => none
  | b :: s, c =>
    if b = c then some (some 0)
    else if b = 0 then some none
    else (strchr s c).map (fun r => r.map (fun i => i + 1))

/-- `strncmp(s1, s2, n)`: compares at most `n` characters and stops after a NUL.
`none` is a scan that left one of the arrays. -/
def strncmp : List Nat → List Nat → Nat → Option Int
  | _, _, 0 => some 0
  | a :: s1, b :: s2, n + 1 =>
    if a ≠ b then some ((a : Int) - (b : Int))
    else if a = 0 then some 0
    else strncmp s1 s2 n
  | _, _, _ + 1 => none

/-- `strlen(s)`; `none` is a scan that left the array. -/
def strlen : List Nat → Option Nat
  | [] => none
  | b :: s => if b = 0 then some 0 else (strlen s).map (fun k => k + 1)

/-- The text held in an array: the bytes before the first NUL. -/
def cstr (buf : List Nat) : List Nat := buf.takeWhile (fun b => b != 0)

/-! ## The operating system as an input -/

/-- What `read(client_fd, ...)` finds: an error, or the bytes that have arrived
(none at all when the peer closed without sending). -/
inductive ReadOutcome where
  | error
  | bytes (avail : List Nat)
  deriving DecidableEq, Repr

/-- What `accept` returns for one pass of the loop. -/
inductive Accept where
  | fail
  | conn (r : ReadOutcome)
  deriving DecidableEq, Repr

/-- Outcome of the three set-up calls `socket`, `bind`, `listen`
(`true` is success). -/
structure Setup where
  socketOk : Bool
  bindOk : Bool
  listenOk : Bool
  deriving DecidableEq, Repr

/-- What the server does to an accepted connection: `write data` is one `write`
call handed the bytes `data` (taken as delivering them), `close` the `close` of
`client_fd`. -/
inductive Action where
  | write (data : List Nat)
  | close
  deriving DecidableEq, Repr

/-- `read(fd, buf, count)`: stores at most `count` of the arrived bytes at the
start of `buf` and returns how many, or returns -1 and stores nothing. -/
def sysRead (buf : List Nat) (count : Nat) : ReadOutcome → Int × List Nat
  | .error => (-1, buf)
  | .bytes avail =>
    let k := min count avail.length
    ((k : Int), avail.take k ++ buf.drop k)

/-- `write(client_fd, resp, strlen(resp))`. -/
def writeResp (resp : List Nat) : Option Action :=
  (strlen resp).map (fun k => Action.write (resp.take k))

/-! ## `server_loop` -/

/-- Lines 72-73 and 74-75: `newline = strchr(buffer, c); if (newline) *newline = 0`. -/
def cutAt (buffer : List Nat) (c : Nat) : Option (List Nat) :=
  match strchr buffer c with
  | none => none
  | some none => some buffer
  | some (some i) => some (buffer.set i 0)

/-- Lines 72-75: cut at the first line feed, then at the first carriage return. -/
def normalise (buffer : List Nat) : Option (List Nat) :=
  (cutAt buffer 10).bind (fun b => cutAt b 13)

/-- Lines 80-100: the `strncmp` chain and the `write` of the chosen response. -/
def dispatch (buffer : List Nat) : Option Action := do
  if (← strncmp buffer (cLiteral "CREATE|") 7) = 0 then
    writeResp (cLiteral "OK|CREATE\n")
  else if (← strncmp buffer (cLiteral "DELETE|") 7) = 0 then
    writeResp (cLiteral "OK|DELETE\n")
  else if (← strncmp buffer (cLiteral "MARK_READ|") 10) = 0 then
    writeResp (cLiteral "OK|MARK_READ\n")
  else if (← strncmp buffer (cLiteral "SHAKE") 5) = 0 then
    writeResp (cLiteral "OK|SHAKE\n")
  else
    writeResp (cLiteral "ERROR|UNKNOWN\n")

/-- Line 69, `buffer[n] = 0`; `none` when index `n` is outside the array. -/
def terminate (buffer : List Nat) (n : Int) : Option (List Nat) :=
  if 0 ≤ n ∧ n.toNat < buffer.length then some (buffer.set n.toNat 0) else none

/-- Lines 64-102: service of one accepted connection.  Returns the buffer as it
is left for the next pass and what was done to the connection. -/
def serve (buffer : List Nat) (r : ReadOutcome) : Option (List Nat × List Action) :=
  let (n, buffer) := sysRead buffer (BUFFER_SIZE - 1) r
  if n ≤ 0 then
    some (buffer, [Action.close])
  else do
    let buffer ← terminate buffer n
    let buffer ← normalise buffer
    let resp ← dispatch buffer
    pure (buffer, [resp, Action.close])

/-- One pass of the `while (1)` body (lines 58-102). -/
def loopBody (buffer : List Nat) : Accept → Option (List Nat × List Action)
  | .fail => some (buffer, [])
  | .conn r => serve buffer r

/-- The `while (1)` loop run over the passes the environment supplies; one list
of actions per pass. -/
def loopRun (buffer : List Nat) : List Accept → Option (List Nat × List (List Action))
  | [] => some (buffer, [])
  | e :: es => do
    let (buffer, acts) ← loopBody buffer e
    let (buffer, rest) ← loopRun buffer es
    pure (buffer, acts :: rest)

/-- `server_loop`: set-up (lines 27-53), then the accept loop.  A failed set-up
call returns before any connection is accepted. -/
def server_loop (su : Setup) (buffer : List Nat) (passes : List Accept) :
    Option (List (List Action)) :=
  if !su.socketOk then some []
  else if !su.bindOk then some []
  else if !su.listenOk then some []
  else (loopRun buffer passes).map Prod.snd

/-! ## `startServer` -/

/-- Observable steps of a `startServer` call. -/
inductive Effect where
  | store (v : Int)
  | spawn (rc : Int)
  deriving DecidableEq, Repr

/-- `Java_com_example_sensorcrud_NativeServer_startServer` (lines 110-124) on the
global `server_started`; `rc` is what `pthread_create` returns if it is called.
`Effect.store v` is an assignment to `server_started`, `Effect.spawn rc` the
`pthread_create(&server_thread, NULL, server_loop, NULL)` call, the only place
that writes `server_thread`. -/
def startServer (server_started : Int) (rc : Int) : Int × List Effect :=
  if server_started ≠ 0 then
    (server_started, [])
  else
    let server_started : Int := 1
    if rc ≠ 0 then
      (0, [Effect.store server_started, Effect.spawn rc, Effect.store 0])
    else
      (server_started, [Effect.store server_started, Effect.spawn rc])

/-- A sequence of `startServer` calls, one `pthread_create` outcome per call. -/
def startCalls (server_started : Int) : List Int → Int × List Effect
  | [] => (server_started, [])
  | rc :: rcs =>
    let (s, t) := startServer server_started rc
    let (s', t') := startCalls s rcs
    (s', t ++ t')

/-- Number of `pthread_create` calls that started a `server_loop` thread. -/
def launches (t : List Effect) : Nat :=
  t.countP (fun e => e == Effect.spawn 0)

/-- The values assigned to `server_started`, in order. -/
def flagStores : List Effect → List Int
  | [] => []
  | Effect.store v :: t => v :: flagStores t
  | Effect.spawn _ :: t => flagStores t

/-! ## Specification-side functions used to state the results -/

/-- The first line of received data: what precedes the first NUL, line feed or
carriage return. -/
def firstLine (d : List Nat) : List Nat :=
  d.takeWhile (fun b => b != 0 && b != 10 && b != 13)

/-- The response table of the protocol, read off a line by prefix. -/
def respond (line : List Nat) : List Nat :=
  if lit "CREATE|" <+: line then lit "OK|CREATE\n"
  else if lit "DELETE|" <+: line then lit "OK|DELETE\n"
  else if lit "MARK_READ|" <+: line then lit "OK|MARK_READ\n"
  else if lit "SHAKE" <+: line then lit "OK|SHAKE\n"
  else lit "ERROR|UNKNOWN\n"

/-- The stores of `k` failed start attempts: each sets the flag and resets it. -/
def failedStores : Nat → List Int
  | 0 => []
  | k + 1 => 1 :: 0 :: failedStores k

/-! ## Lemmas on the string functions -/

theorem takeWhile_takeWhile_and (p q : Nat → Bool) (l : List Nat) :
    (l.takeWhile p).takeWhile q = l.takeWhile (fun b => p b && q b) := by
  induction l with
  | nil => rfl
  | cons a l ih =>
    by_cases hp : p a <;> by_cases hq : q a <;> simp [List.takeWhile_cons, hp, hq, ih]

theorem takeWhile_append_stop (p : Nat → Bool) (l r : List Nat) (c : Nat) (hc : p c = false) :
    (l ++ c :: r).takeWhile p = (l ++ [c]).takeWhile p := by
  induction l with
  | nil => simp [List.takeWhile_cons, hc]
  | cons a l ih => by_cases hp : p a <;> simp [List.takeWhile_cons, hp, ih]

theorem takeWhile_take_comm (p : Nat → Bool) (n : Nat) (l : List Nat) :
    (l.take n).takeWhile p = (l.takeWhile p).take n := by
  induction l generalizing n with
  | nil => simp
  | cons a l ih =>
    cases n with
    | zero => simp
    | succ n => by_cases hp : p a <;> simp [List.takeWhile_cons, hp, ih]

theorem takeWhile_all (q : Nat → Bool) (l : List Nat) :
    ∀ b ∈ l.takeWhile q, q b = true := by
  induction l with
  | nil => simp
  | cons a l ih =>
    by_cases hq : q a = true
    · intro b hb
      rw [List.takeWhile_cons_of_pos hq, List.mem_cons] at hb
      rcases hb with rfl | hb
      · exact hq
      · exact ih b hb
    · simp [List.takeWhile_cons_of_neg hq]

theorem not_mem_takeWhile_ne (c : Nat) (l : List Nat) :
    c ∉ l.takeWhile (fun b => b != c) := by
  induction l with
  | nil => simp
  | cons a l ih =>
    by_cases h : a = c
    · simp [List.takeWhile_cons, h]
    · simp [List.takeWhile_cons, h, ih]; exact fun h2 => h h2.symm

theorem split_at_nul (d t : List Nat) :
    ∃ t', d ++ 0 :: t = d.takeWhile (fun b => b != 0) ++ 0 :: t' := by
  induction d with
  | nil => exact ⟨t, rfl⟩
  | cons a d ih =>
    by_cases h : a = 0
    · exact ⟨d ++ 0 :: t, by simp [List.takeWhile_cons, h]⟩
    · obtain ⟨t', ht'⟩ := ih
      exact ⟨t', by simp [List.takeWhile_cons, h, ht']⟩

theorem cstr_append_nul (l t : List Nat) (hl : 0 ∉ l) : cstr (l ++ 0 :: t) = l := by
  induction l with
  | nil => simp [cstr, List.takeWhile_cons]
  | cons a l ih =>
    simp only [List.mem_cons, not_or] at hl
    have ha : a ≠ 0 := fun h => hl.1 h.symm
    have := ih hl.2
    simp only [cstr] at this
    simp [cstr, List.takeWhile_cons, ha, this]

theorem mem_nul_split (buf : List Nat) (h : 0 ∈ buf) :
    ∃ t, buf = cstr buf ++ 0 :: t := by
  obtain ⟨l, r, rfl⟩ := List.append_of_mem h
  obtain ⟨t', ht'⟩ := split_at_nul l r
  refine ⟨t', ?_⟩
  have : cstr (l ++ 0 :: r) = l.takeWhile (fun b => b != 0) := by
    rw [ht']; exact cstr_append_nul _ _ (not_mem_takeWhile_ne 0 l)
  rw [this]; exact ht'

theorem nul_not_mem_cstr (buf : List Nat) : 0 ∉ cstr buf :=
  not_mem_takeWhile_ne 0 buf

theorem cutAt_cons (a c : Nat) (s : List Nat) (hac : a ≠ c) (ha : a ≠ 0) :
    cutAt (a :: s) c = (cutAt s c).map (fun b => a :: b) := by
  unfold cutAt
  simp only [strchr, hac, ha, if_false]
  rcases strchr s c with _ | _ | i <;> simp

/-- A cut changes nothing from the first NUL it is given on: the bytes of `l` may
change, the NUL after them and the tail `t` stay. -/
theorem cutAt_keeps_tail (c : Nat) (hc : c ≠ 0) (l t : List Nat) :
    ∃ l', cutAt (l ++ 0 :: t) c = some (l' ++ 0 :: t) ∧ l'.length = l.length := by
  induction l with
  | nil => exact ⟨[], by simp [cutAt, strchr, hc.symm], rfl⟩
  | cons a l ih =>
    by_cases hac : a = c
    · exact ⟨0 :: l, by simp [cutAt, strchr, hac], by simp⟩
    · by_cases ha : a = 0
      · subst ha
        exact ⟨0 :: l, by simp [cutAt, strchr, hac], by simp⟩
      · obtain ⟨l', h1, h2⟩ := ih
        refine ⟨a :: l', ?_, by simp [h2]⟩
        rw [List.cons_append, cutAt_cons a c _ hac ha, h1]
        simp

theorem normalise_keeps_tail (l t : List Nat) :
    ∃ l', normalise (l ++ 0 :: t) = some (l' ++ 0 :: t) ∧ l'.length = l.length := by
  obtain ⟨l1, h1, n1⟩ := cutAt_keeps_tail 10 (by decide) l t
  obtain ⟨l2, h2, n2⟩ := cutAt_keeps_tail 13 (by decide) l1 t
  exact ⟨l2, by simp [normalise, h1, h2], by omega⟩

theorem cutAt_terminated (c : Nat) (hc : c ≠ 0) (l t : List Nat) (hl : 0 ∉ l) :
    ∃ t', cutAt (l ++ 0 :: t) c = some (l.takeWhile (fun b => b != c) ++ 0 :: t') ∧
      (l.takeWhile (fun b => b != c) ++ 0 :: t').length = (l ++ 0 :: t).length := by
  induction l with
  | nil =>
    refine ⟨t, ?_, rfl⟩
    simp [cutAt, strchr, hc.symm]
  | cons a l ih =>
    simp only [List.mem_cons, not_or] at hl
    have ha : a ≠ 0 := fun h => hl.1 h.symm
    by_cases hac : a = c
    · refine ⟨l ++ 0 :: t, ?_, ?_⟩
      · simp [cutAt, strchr, hac]
      · simp [hac]
    · obtain ⟨t', h1, h2⟩ := ih hl.2
      refine ⟨t', ?_, ?_⟩
      · rw [List.cons_append, cutAt_cons a c _ hac ha, h1]
        simp [List.takeWhile_cons, hac]
      · simp [List.takeWhile_cons, hac] at h2 ⊢
        omega

theorem strncmp_terminated (p : List Nat) (hp : 0 ∉ p) (l t : List Nat) :
    ∃ r, strncmp (l ++ 0 :: t) (p ++ [0]) p.length = some r ∧ (r = 0 ↔ p <+: l) := by
  induction p generalizing l with
  | nil => exact ⟨0, by simp [strncmp], by simp⟩
  | cons b p ih =>
    simp only [List.mem_cons, not_or] at hp
    have hb : b ≠ 0 := fun h => hp.1 h.symm
    cases l with
    | nil =>
      refine ⟨-(b : Int), ?_, ?_⟩
      · simp [strncmp, hb.symm]
      · simp; omega
    | cons a l =>
      by_cases hab : a = b
      · obtain ⟨r, h1, h2⟩ := ih hp.2 l
        refine ⟨r, ?_, ?_⟩
        · simp [strncmp, hab, hb, h1]
        · rw [h2, hab]; simp [List.cons_prefix_cons]
      · refine ⟨(a : Int) - (b : Int), ?_, ?_⟩
        · simp [strncmp, hab]
        · simp [List.cons_prefix_cons, hab]; omega

theorem writeResp_cLiteral :
    writeResp (cLiteral "OK|CREATE\n") = some (Action.write (lit "OK|CREATE\n")) ∧
    writeResp (cLiteral "OK|DELETE\n") = some (Action.write (lit "OK|DELETE\n")) ∧
    writeResp (cLiteral "OK|MARK_READ\n") = some (Action.write (lit "OK|MARK_READ\n")) ∧
    writeResp (cLiteral "OK|SHAKE\n") = some (Action.write (lit "OK|SHAKE\n")) ∧
    writeResp (cLiteral "ERROR|UNKNOWN\n") = some (Action.write (lit "ERROR|UNKNOWN\n")) := by
  refine ⟨?_, ?_, ?_, ?_, ?_⟩ <;> decide

/-- On a terminated line the `strncmp` chain answers by the response table. -/
theorem dispatch_terminated (l t : List Nat) :
    dispatch (l ++ 0 :: t) = some (Action.write (respond l)) := by
  obtain ⟨r1, h1, e1⟩ := strncmp_terminated (lit "CREATE|") (by decide) l t
  obtain ⟨r2, h2, e2⟩ := strncmp_terminated (lit "DELETE|") (by decide) l t
  obtain ⟨r3, h3, e3⟩ := strncmp_terminated (lit "MARK_READ|") (by decide) l t
  obtain ⟨r4, h4, e4⟩ := strncmp_terminated (lit "SHAKE") (by decide) l t
  have n1 : (lit "CREATE|").length = 7 := by decide
  have n2 : (lit "DELETE|").length = 7 := by decide
  have n3 : (lit "MARK_READ|").length = 10 := by decide
  have n4 : (lit "SHAKE").length = 5 := by decide
  rw [n1] at h1; rw [n2] at h2; rw [n3] at h3; rw [n4] at h4
  obtain ⟨w1, w2, w3, w4, w5⟩ := writeResp_cLiteral
  unfold dispatch respond
  simp only [cLiteral, h1, h2, h3, h4, Option.bind_eq_bind, Option.some_bind, e1, e2, e3, e4]
  by_cases p1 : lit "CREATE|" <+: l
  · simp only [p1, if_true]; exact w1
  · simp only [p1, if_false]
    by_cases p2 : lit "DELETE|" <+: l
    · simp only [p2, if_true]; exact w2
    · simp only [p2, if_false]
      by_cases p3 : lit "MARK_READ|" <+: l
      · simp only [p3, if_true]; exact w3
      · simp only [p3, if_false]
        by_cases p4 : lit "SHAKE" <+: l
        · simp only [p4, if_true]; exact w4
        · simp only [p4, if_false]; exact w5

theorem normalise_terminated (l t : List Nat) (hl : 0 ∉ l) :
    ∃ t', normalise (l ++ 0 :: t) =
        some (l.takeWhile (fun b => b != 10 && b != 13) ++ 0 :: t') ∧
      (l.takeWhile (fun b => b != 10 && b != 13) ++ 0 :: t').length = (l ++ 0 :: t).length := by
  obtain ⟨t1, h1, n1⟩ := cutAt_terminated 10 (by decide) l t hl
  have hl1 : 0 ∉ l.takeWhile (fun b => b != 10) :=
    fun h => hl ((List.takeWhile_prefix _).subset h)
  obtain ⟨t2, h2, n2⟩ := cutAt_terminated 13 (by decide) _ t1 hl1
  rw [takeWhile_takeWhile_and] at h2 n2
  exact ⟨t2, by simp [normalise, h1, h2], by omega⟩

/-- The buffer after line 69 when `read` delivered the bytes `avail`. -/
theorem terminate_read (buffer avail : List Nat) (hb : buffer.length = BUFFER_SIZE)
    (ha : avail ≠ []) :
    ∃ k : Nat, ∃ t, 1 ≤ k ∧ k ≤ BUFFER_SIZE - 1 ∧
      sysRead buffer (BUFFER_SIZE - 1) (.bytes avail) =
        ((k : Int), avail.take (BUFFER_SIZE - 1) ++ buffer.drop k) ∧
      terminate (avail.take (BUFFER_SIZE - 1) ++ buffer.drop k) (k : Int) =
        some (avail.take (BUFFER_SIZE - 1) ++ 0 :: t) ∧
      (avail.take (BUFFER_SIZE - 1) ++ 0 :: t).length = BUFFER_SIZE ∧
      (avail.take (BUFFER_SIZE - 1)).length = k ∧
      k = min (BUFFER_SIZE - 1) avail.length ∧ t = buffer.drop (k + 1) := by
  have hlen : 0 < avail.length := List.length_pos.mpr ha
  simp only [BUFFER_SIZE] at hb ⊢
  refine ⟨min 1023 avail.length, buffer.drop (min 1023 avail.length + 1), ?_, ?_, ?_, ?_, ?_,
    ?_, rfl, rfl⟩
  rotate_left 5
  · simp
  · omega
  · omega
  · simp [sysRead, List.take_eq_take]
  · have hk : (avail.take 1023).length = min 1023 avail.length := by simp
    have hd : 0 < (buffer.drop (min 1023 avail.length)).length := by
      simp [hb]
    obtain ⟨x, xs, hx⟩ := List.exists_cons_of_length_pos hd
    have hxs : xs = buffer.drop (min 1023 avail.length + 1) := by
      have := congrArg List.tail hx
      simpa [List.drop_drop, Nat.add_comm] using this.symm
    simp only [terminate, Int.toNat_ofNat, List.length_append, hk, Int.natCast_nonneg,
      true_and]
    rw [if_pos (by rw [hx]; simp)]
    have hset : (avail.take 1023 ++ buffer.drop (min 1023 avail.length)).set
        (min 1023 avail.length) 0 =
        avail.take 1023 ++ (buffer.drop (min 1023 avail.length)).set
          (min 1023 avail.length - (avail.take 1023).length) 0 :=
      List.set_append_right _ _ (by rw [hk])
    rw [hset, hk, Nat.sub_self, hx, hxs]
    simp
  · simp [hb]; omega

/-- Refinement: a non-empty read is answered by the response table applied to the
first line of the (at most 1023) bytes read, whatever the buffer held before. -/
theorem serve_bytes (buffer avail : List Nat) (hb : buffer.length = BUFFER_SIZE)
    (ha : avail ≠ []) :
    ∃ buffer', buffer'.length = BUFFER_SIZE ∧
      serve buffer (.bytes avail) =
        some (buffer',
          [Action.write (respond (firstLine (avail.take (BUFFER_SIZE - 1)))), Action.close]) := by
  obtain ⟨k, t, hk1, hk2, hr, ht, hlen, _⟩ := terminate_read buffer avail hb ha
  obtain ⟨t1, hs⟩ := split_at_nul (avail.take (BUFFER_SIZE - 1)) t
  obtain ⟨t2, hn, hlen2⟩ := normalise_terminated
    ((avail.take (BUFFER_SIZE - 1)).takeWhile (fun b => b != 0)) t1 (not_mem_takeWhile_ne 0 _)
  rw [takeWhile_takeWhile_and (fun b => b != 0) (fun b => b != 10 && b != 13)] at hn hlen2
  have hfl : ∀ d : List Nat, List.takeWhile (fun b => b != 0 && (b != 10 && b != 13)) d
      = firstLine d := by
    intro d; unfold firstLine; congr 1; funext b; simp [Bool.and_assoc]
  rw [hfl] at hn hlen2
  refine ⟨firstLine (avail.take (BUFFER_SIZE - 1)) ++ 0 :: t2, ?_, ?_⟩
  · rw [hlen2, ← hs]; exact hlen
  · unfold serve
    rw [hr]
    have hpos : ¬ ((k : Int) ≤ 0) := by omega
    simp only [hpos, if_false, ht, hs, hn, Option.bind_eq_bind, Option.some_bind,
      dispatch_terminated]
    rfl

/-- A read of nothing, or a failed read: the connection is closed unanswered and
the buffer keeps its length. -/
theorem serve_nothing (buffer : List Nat) (r : ReadOutcome)
    (hr : r = .error ∨ r = .bytes []) :
    serve buffer r = some (buffer, [Action.close]) := by
  rcases hr with rfl | rfl <;> simp [serve, sysRead]

theorem loopBody_defined (buffer : List Nat) (hb : buffer.length = BUFFER_SIZE) (e : Accept) :
    ∃ buffer' acts, buffer'.length = BUFFER_SIZE ∧ loopBody buffer e = some (buffer', acts) := by
  cases e with
  | fail => exact ⟨buffer, [], hb, rfl⟩
  | conn r =>
    cases r with
    | error => exact ⟨buffer, _, hb, serve_nothing buffer _ (Or.inl rfl)⟩
    | bytes avail =>
      by_cases ha : avail = []
      · subst ha; exact ⟨buffer, _, hb, serve_nothing buffer _ (Or.inr rfl)⟩
      · obtain ⟨b', h1, h2⟩ := serve_bytes buffer avail hb ha
        exact ⟨b', _, h1, h2⟩

/-- The loop never leaves the array: every finite run of passes is defined, with
one list of actions per pass. -/
theorem loopRun_defined (passes : List Accept) (buffer : List Nat)
    (hb : buffer.length = BUFFER_SIZE) :
    ∃ buffer' out, buffer'.length = BUFFER_SIZE ∧ out.length = passes.length ∧
      loopRun buffer passes = some (buffer', out) := by
  induction passes generalizing buffer with
  | nil => exact ⟨buffer, [], hb, rfl, rfl⟩
  | cons e es ih =>
    obtain ⟨b1, acts, hb1, h1⟩ := loopBody_defined buffer hb e
    obtain ⟨b2, out, hb2, hl, h2⟩ := ih b1 hb1
    exact ⟨b2, acts :: out, hb2, by simp [hl], by simp [loopRun, h1, h2]⟩

theorem loopRun_append (p q : List Accept) (buffer : List Nat) :
    loopRun buffer (p ++ q) =
      (loopRun buffer p).bind (fun s =>
        (loopRun s.1 q).map (fun s' => (s'.1, s.2 ++ s'.2))) := by
  induction p generalizing buffer with
  | nil =>
    simp only [List.nil_append, loopRun, Option.some_bind, List.nil_append]
    cases loopRun buffer q <;> simp
  | cons e es ih =>
    simp only [List.cons_append, loopRun, Option.bind_eq_bind]
    cases loopBody buffer e with
    | none => simp
    | some s1 =>
      simp only [Option.some_bind, List.append_eq]
      rw [ih]
      cases loopRun s1.1 es with
      | none => simp
      | some s2 =>
        simp only [Option.some_bind]
        rcases h : loopRun s2.1 q with _ | v <;> simp [h]

/-! ## Lemmas on the first line and the response table -/

theorem takeWhile_starts_with (q : Nat → Bool) (p l : List Nat) (hpl : p <+: l)
    (hq : ∀ b ∈ p, q b = true) : p <+: l.takeWhile q := by
  obtain ⟨r, rfl⟩ := hpl
  induction p with
  | nil => simp
  | cons a p ih =>
    have ha : q a = true := hq a (List.mem_cons_self _ _)
    have := ih (fun b hb => hq b (List.mem_cons_of_mem _ hb))
    simpa [List.takeWhile_cons, ha, List.cons_prefix_cons] using this

theorem firstLine_take_initial (n : Nat) (d : List Nat) : firstLine (d.take n) <+: d :=
  (List.takeWhile_prefix _).trans (List.take_prefix n d)

theorem firstLine_take_starts_with (p d : List Nat) (n : Nat) (hpd : p <+: d)
    (hp : ∀ b ∈ p, (b != 0 && b != 10 && b != 13) = true) (hn : p.length ≤ n) :
    p <+: firstLine (d.take n) := by
  apply takeWhile_starts_with _ _ _ _ hp
  obtain ⟨r, rfl⟩ := hpd
  rw [List.take_append_eq_append_take, List.take_of_length_le hn]
  exact List.prefix_append _ _

theorem firstLine_append_lf (l rest : List Nat) (n : Nat) :
    firstLine ((l ++ [10] ++ rest).take n) = firstLine ((l ++ [10]).take n) := by
  unfold firstLine
  rw [takeWhile_take_comm, takeWhile_take_comm, List.append_assoc, List.singleton_append,
    takeWhile_append_stop _ l rest 10 (by decide)]

theorem lit_values :
    lit "CREATE|" = [67, 82, 69, 65, 84, 69, 124] ∧
    lit "DELETE|" = [68, 69, 76, 69, 84, 69, 124] ∧
    lit "MARK_READ|" = [77, 65, 82, 75, 95, 82, 69, 65, 68, 124] ∧
    lit "SHAKE" = [83, 72, 65, 75, 69] := by
  refine ⟨?_, ?_, ?_, ?_⟩ <;> decide

/-- The response table, branch by branch. -/
theorem respond_cases (l : List Nat) :
    (lit "CREATE|" <+: l → respond l = lit "OK|CREATE\n") ∧
    (lit "DELETE|" <+: l → respond l = lit "OK|DELETE\n") ∧
    (lit "MARK_READ|" <+: l → respond l = lit "OK|MARK_READ\n") ∧
    (lit "SHAKE" <+: l → respond l = lit "OK|SHAKE\n") ∧
    (¬ lit "CREATE|" <+: l → ¬ lit "DELETE|" <+: l → ¬ lit "MARK_READ|" <+: l →
      ¬ lit "SHAKE" <+: l → respond l = lit "ERROR|UNKNOWN\n") := by
  obtain ⟨hC, hD, hM, hS⟩ := lit_values
  refine ⟨?_, ?_, ?_, ?_, ?_⟩
  · intro h; simp [respond, h]
  · rintro ⟨r, rfl⟩; simp [respond, hC, hD, List.cons_prefix_cons]
  · rintro ⟨r, rfl⟩; simp [respond, hC, hD, hM, List.cons_prefix_cons]
  · rintro ⟨r, rfl⟩; simp [respond, hC, hD, hM, hS, List.cons_prefix_cons]
  · intro h1 h2 h3 h4; simp [respond, h1, h2, h3, h4]

/-- The response to a non-empty read, as a function of the bytes that arrived. -/
theorem serve_response (buffer avail : List Nat) (hb : buffer.length = BUFFER_SIZE)
    (ha : avail ≠ []) :
    (serve buffer (.bytes avail)).map Prod.snd =
      some [Action.write (respond (firstLine (avail.take (BUFFER_SIZE - 1)))), Action.close] := by
  obtain ⟨b', _, h⟩ := serve_bytes buffer avail hb ha
  rw [h]; rfl

/-- A read whose first bytes are a command prefix yields a line with that prefix. -/
theorem line_starts_with (p avail : List Nat) (hpa : p <+: avail)
    (hp : ∀ b ∈ p, (b != 0 && b != 10 && b != 13) = true) (hn : p.length ≤ BUFFER_SIZE - 1) :
    p <+: firstLine (avail.take (BUFFER_SIZE - 1)) :=
  firstLine_take_starts_with p avail _ hpa hp hn

theorem read_nonpos (buffer : List Nat) (r : ReadOutcome)
    (h : (sysRead buffer (BUFFER_SIZE - 1) r).1 ≤ 0) : r = .error ∨ r = .bytes [] := by
  cases r with
  | error => exact Or.inl rfl
  | bytes avail =>
    right
    cases avail with
    | nil => rfl
    | cons a l =>
      simp only [sysRead, BUFFER_SIZE, List.length_cons] at h
      omega

theorem terminate_eq (buffer buffer' : List Nat) (n : Int)
    (h : terminate buffer n = some buffer') : buffer' = buffer.set n.toNat 0 := by
  unfold terminate at h
  by_cases hc : 0 ≤ n ∧ n.toNat < buffer.length
  · rw [if_pos hc] at h
    exact (Option.some.inj h).symm
  · rw [if_neg hc] at h
    cases h

/-- The text in the buffer after line 69 is the bytes read, up to their first NUL;
it is all of them when none is NUL. -/
theorem received_text (buffer avail : List Nat) (hb : buffer.length = BUFFER_SIZE)
    (ha : avail ≠ []) :
    ∃ terminated,
      terminate (sysRead buffer (BUFFER_SIZE - 1) (.bytes avail)).2
        (sysRead buffer (BUFFER_SIZE - 1) (.bytes avail)).1 = some terminated ∧
      cstr terminated = (avail.take (BUFFER_SIZE - 1)).takeWhile (fun b => b != 0) ∧
      (0 ∉ avail → cstr terminated = avail.take (BUFFER_SIZE - 1)) := by
  obtain ⟨k, t, _, _, hr, ht, _, _⟩ := terminate_read buffer avail hb ha
  obtain ⟨t1, hs⟩ := split_at_nul (avail.take (BUFFER_SIZE - 1)) t
  have hc : cstr (avail.take (BUFFER_SIZE - 1) ++ 0 :: t) =
      (avail.take (BUFFER_SIZE - 1)).takeWhile (fun b => b != 0) := by
    rw [hs]; exact cstr_append_nul _ _ (not_mem_takeWhile_ne 0 _)
  rw [hr]
  refine ⟨_, ht, hc, ?_⟩
  intro h0
  exact cstr_append_nul _ _ (fun h => h0 (List.mem_of_mem_take h))

theorem terminate_mem (buffer buffer' : List Nat) (n : Int)
    (h : terminate buffer n = some buffer') : 0 ∈ buffer' := by
  unfold terminate at h
  split at h
  · next hc =>
    injection h with h
    rw [← h]
    exact List.mem_iff_getElem.mpr ⟨n.toNat, by simpa using hc.2, by simp⟩
  · cases h

/-! ## The protocol (claims C1, C2, C3) -/

/-- C1: a read of `C|a` and a line feed, for `C` one of CREATE, DELETE, MARK_READ,
SHAKE and `a` any bytes, and a read of the bare line `SHAKE`, is answered by a
single write of exactly `OK|C` and one line feed, followed by the close; so are
the four sample requests of the specification. -/
theorem C1_supported_command_acknowledged (buffer a : List Nat)
    (hb : buffer.length = BUFFER_SIZE) :
    (serve buffer (.bytes (lit "CREATE" ++ lit "|" ++ a ++ lit "\n"))).map Prod.snd =
        some [Action.write (lit "OK|CREATE\n"), Action.close] ∧
    (serve buffer (.bytes (lit "DELETE" ++ lit "|" ++ a ++ lit "\n"))).map Prod.snd =
        some [Action.write (lit "OK|DELETE\n"), Action.close] ∧
    (serve buffer (.bytes (lit "MARK_READ" ++ lit "|" ++ a ++ lit "\n"))).map Prod.snd =
        some [Action.write (lit "OK|MARK_READ\n"), Action.close] ∧
    (serve buffer (.bytes (lit "SHAKE" ++ lit "|" ++ a ++ lit "\n"))).map Prod.snd =
        some [Action.write (lit "OK|SHAKE\n"), Action.close] ∧
    (serve buffer (.bytes (lit "SHAKE\n"))).map Prod.snd =
        some [Action.write (lit "OK|SHAKE\n"), Action.close] ∧
    (serve buffer (.bytes (lit "CREATE|42\n"))).map Prod.snd =
        some [Action.write (lit "OK|CREATE\n"), Action.close] ∧
    (serve buffer (.bytes (lit "DELETE|7\n"))).map Prod.snd =
        some [Action.write (lit "OK|DELETE\n"), Action.close] ∧
    (serve buffer (.bytes (lit "MARK_READ|3\n"))).map Prod.snd =
        some [Action.write (lit "OK|MARK_READ\n"), Action.close] := by
  have key : ∀ (p resp avail : List Nat), p <+: avail → p ≠ [] →
      (∀ b ∈ p, (b != 0 && b != 10 && b != 13) = true) → p.length ≤ BUFFER_SIZE - 1 →
      (∀ l, p <+: l → respond l = resp) →
      (serve buffer (.bytes avail)).map Prod.snd = some [Action.write resp, Action.close] := by
    intro p resp avail hpa hne hp hn hresp
    have ha : avail ≠ [] := by
      rintro rfl
      exact hne (List.prefix_nil.mp hpa)
    rw [serve_response buffer avail hb ha, hresp _ (line_starts_with p avail hpa hp hn)]
  have eC : lit "CREATE" ++ lit "|" = lit "CREATE|" := by decide
  have eD : lit "DELETE" ++ lit "|" = lit "DELETE|" := by decide
  have eM : lit "MARK_READ" ++ lit "|" = lit "MARK_READ|" := by decide
  refine ⟨?_, ?_, ?_, ?_, ?_, ?_, ?_, ?_⟩
  · exact key (lit "CREATE|") _ _ (by rw [eC, List.append_assoc]; exact List.prefix_append _ _)
      (by decide) (by decide) (by decide) (fun l => (respond_cases l).1)
  · exact key (lit "DELETE|") _ _ (by rw [eD, List.append_assoc]; exact List.prefix_append _ _)
      (by decide) (by decide) (by decide) (fun l => (respond_cases l).2.1)
  · exact key (lit "MARK_READ|") _ _ (by rw [eM, List.append_assoc]; exact List.prefix_append _ _)
      (by decide) (by decide) (by decide) (fun l => (respond_cases l).2.2.1)
  · exact key (lit "SHAKE") _ _
      (by rw [List.append_assoc, List.append_assoc]; exact List.prefix_append _ _)
      (by decide) (by decide) (by decide) (fun l => (respond_cases l).2.2.2.1)
  · exact key (lit "SHAKE") _ _ (by decide)
      (by decide) (by decide) (by decide) (fun l => (respond_cases l).2.2.2.1)
  · exact key (lit "CREATE|") _ _ (by decide)
      (by decide) (by decide) (by decide) (fun l => (respond_cases l).1)
  · exact key (lit "DELETE|") _ _ (by decide)
      (by decide) (by decide) (by decide) (fun l => (respond_cases l).2.1)
  · exact key (lit "MARK_READ|") _ _ (by decide)
      (by decide) (by decide) (by decide) (fun l => (respond_cases l).2.2.1)

/-- C1 at the buffer of 1024 NULs and the argument `42`. -/
theorem C1_supported_command_acknowledged_witness :
    (serve (List.replicate 1024 0)
        (.bytes (lit "CREATE" ++ lit "|" ++ lit "42" ++ lit "\n"))).map Prod.snd =
      some [Action.write (lit "OK|CREATE\n"), Action.close] :=
  (C1_supported_command_acknowledged (List.replicate 1024 0) (lit "42")
    (List.length_replicate 1024 0)).1

/-- C2: a non-empty read that begins with none of `CREATE|`, `DELETE|`,
`MARK_READ|`, `SHAKE` is answered by a single write of exactly `ERROR|UNKNOWN`
and one line feed, followed by the close; among them `CREATE` without its
delimiter, the lower-case `create|1`, the empty line and `PING`. -/
theorem C2_unknown_command_rejected (buffer : List Nat) (hb : buffer.length = BUFFER_SIZE) :
    (∀ avail : List Nat, avail ≠ [] →
      ¬ lit "CREATE|" <+: avail → ¬ lit "DELETE|" <+: avail →
      ¬ lit "MARK_READ|" <+: avail → ¬ lit "SHAKE" <+: avail →
      (serve buffer (.bytes avail)).map Prod.snd =
        some [Action.write (lit "ERROR|UNKNOWN\n"), Action.close]) ∧
    (serve buffer (.bytes (lit "CREATE\n"))).map Prod.snd =
        some [Action.write (lit "ERROR|UNKNOWN\n"), Action.close] ∧
    (serve buffer (.bytes (lit "create|1\n"))).map Prod.snd =
        some [Action.write (lit "ERROR|UNKNOWN\n"), Action.close] ∧
    (serve buffer (.bytes (lit "\n"))).map Prod.snd =
        some [Action.write (lit "ERROR|UNKNOWN\n"), Action.close] ∧
    (serve buffer (.bytes (lit "PING\n"))).map Prod.snd =
        some [Action.write (lit "ERROR|UNKNOWN\n"), Action.close] := by
  have key : ∀ avail : List Nat, avail ≠ [] →
      ¬ lit "CREATE|" <+: avail → ¬ lit "DELETE|" <+: avail →
      ¬ lit "MARK_READ|" <+: avail → ¬ lit "SHAKE" <+: avail →
      (serve buffer (.bytes avail)).map Prod.snd =
        some [Action.write (lit "ERROR|UNKNOWN\n"), Action.close] := by
    intro avail ha h1 h2 h3 h4
    have hpre := firstLine_take_initial (BUFFER_SIZE - 1) avail
    rw [serve_response buffer avail hb ha,
      (respond_cases _).2.2.2.2 (fun h => h1 (h.trans hpre)) (fun h => h2 (h.trans hpre))
        (fun h => h3 (h.trans hpre)) (fun h => h4 (h.trans hpre))]
  refine ⟨key, ?_, ?_, ?_, ?_⟩
  · exact key _ (by decide) (by decide) (by decide) (by decide) (by decide)
  · exact key _ (by decide) (by decide) (by decide) (by decide) (by decide)
  · exact key _ (by decide) (by decide) (by decide) (by decide) (by decide)
  · exact key _ (by decide) (by decide) (by decide) (by decide) (by decide)

/-- C2 at the buffer of 1024 NULs and the request `PING`. -/
theorem C2_unknown_command_rejected_witness :
    (serve (List.replicate 1024 0) (.bytes (lit "PING\n"))).map Prod.snd =
      some [Action.write (lit "ERROR|UNKNOWN\n"), Action.close] :=
  (C2_unknown_command_rejected (List.replicate 1024 0) (List.length_replicate 1024 0)).1
    (lit "PING\n") (by decide) (by decide) (by decide) (by decide) (by decide)

/-- C3: the bytes after the first line feed of a read never change the response:
the read `l`, line feed, `rest` is answered exactly as the read `l`, line feed,
and that answer is one write followed by the close.  (It holds for every `l`,
so in particular for an `l` without a line feed.) -/
theorem C3_only_first_line_decides (buffer l rest : List Nat)
    (hb : buffer.length = BUFFER_SIZE) :
    (serve buffer (.bytes (l ++ lit "\n" ++ rest))).map Prod.snd =
      (serve buffer (.bytes (l ++ lit "\n"))).map Prod.snd ∧
    ∃ resp, (serve buffer (.bytes (l ++ lit "\n"))).map Prod.snd =
      some [Action.write resp, Action.close] := by
  have e : lit "\n" = [10] := by decide
  rw [e]
  have h1 : l ++ [10] ++ rest ≠ [] := by simp
  have h2 : l ++ [10] ≠ [] := by simp
  rw [serve_response buffer _ hb h1, serve_response buffer _ hb h2, firstLine_append_lf]
  exact ⟨rfl, _, rfl⟩

/-- C3 at the buffer of 1024 NULs: `PING` followed by a second line `CREATE|1`. -/
theorem C3_only_first_line_decides_witness :
    (serve (List.replicate 1024 0)
        (.bytes (lit "PING" ++ lit "\n" ++ lit "CREATE|1\n"))).map Prod.snd =
      (serve (List.replicate 1024 0) (.bytes (lit "PING" ++ lit "\n"))).map Prod.snd :=
  (C3_only_first_line_decides (List.replicate 1024 0) (lit "PING") (lit "CREATE|1\n")
    (List.length_replicate 1024 0)).1

theorem startCalls_started (s : Int) (hs : s ≠ 0) (rcs : List Int) :
    startCalls s rcs = (s, []) := by
  induction rcs with
  | nil => rfl
  | cons rc rcs ih => simp [startCalls, startServer, hs, ih]

theorem launches_append (t t' : List Effect) :
    launches (t ++ t') = launches t + launches t' := by
  simp [launches, List.countP_append]

theorem flagStores_append (t t' : List Effect) :
    flagStores (t ++ t') = flagStores t ++ flagStores t' := by
  induction t with
  | nil => rfl
  | cons e t ih => cases e <;> simp [flagStores, ih]

/-! ## Start-up (claims C4, C5, C7) -/

/-- C4: a `startServer` call made while `server_started` is non-zero changes
nothing and calls nothing; over every sequence of calls, whatever
`pthread_create` returns each time, at most one call starts the listener
thread; and two calls of which the first succeeds start exactly one. -/
theorem C4_start_launches_at_most_once :
    (∀ s rc : Int, s ≠ 0 → startServer s rc = (s, [])) ∧
    (∀ (s : Int) (rcs : List Int), launches (startCalls s rcs).2 ≤ 1) ∧
    (∀ rc : Int, launches (startCalls 0 [0, rc]).2 = 1 ∧
      startCalls 0 [0, rc] = (1, [Effect.store 1, Effect.spawn 0])) := by
  refine ⟨?_, ?_, ?_⟩
  · intro s rc hs
    simp [startServer, hs]
  · intro s rcs
    induction rcs generalizing s with
    | nil => simp [startCalls, launches]
    | cons rc rcs ih =>
      by_cases hs : s = 0
      · subst hs
        by_cases hrc : rc = 0
        · subst hrc
          simp [startCalls, startServer, startCalls_started 1 (by decide) rcs, launches]
        · have h := ih 0
          have e : startCalls 0 (rc :: rcs) =
              ((startCalls 0 rcs).1,
                [Effect.store 1, Effect.spawn rc, Effect.store 0] ++ (startCalls 0 rcs).2) := by
            simp [startCalls, startServer, hrc]
          rw [e, launches_append]
          have : launches [Effect.store 1, Effect.spawn rc, Effect.store 0] = 0 := by
            simp [launches, List.countP_cons, hrc]
          simp only [this]
          omega
      · rw [startCalls_started s hs]
        simp [launches]
  · intro rc
    have e : startCalls 0 [0, rc] = (1, [Effect.store 1, Effect.spawn 0]) := by
      simp [startCalls, startServer]
    rw [e]
    exact ⟨by decide, rfl⟩

/-- C4 at a started flag and at the calls with outcomes 11, 0, 0. -/
theorem C4_start_launches_at_most_once_witness :
    startServer 1 0 = (1, []) ∧ launches (startCalls 0 [11, 0, 0]).2 ≤ 1 :=
  ⟨C4_start_launches_at_most_once.1 1 0 (by decide),
    C4_start_launches_at_most_once.2.1 0 [11, 0, 0]⟩

/-- C5: a `startServer` call made with `server_started` zero whose
`pthread_create` fails leaves `server_started` zero; the next call calls
`pthread_create` again and, when that succeeds, leaves `server_started` one. -/
theorem C5_failed_launch_resets_flag (rc : Int) (hrc : rc ≠ 0) :
    startServer 0 rc = (0, [Effect.store 1, Effect.spawn rc, Effect.store 0]) ∧
    (∀ rc' : Int, Effect.spawn rc' ∈ (startServer (startServer 0 rc).1 rc').2) ∧
    startServer (startServer 0 rc).1 0 = (1, [Effect.store 1, Effect.spawn 0]) ∧
    startCalls 0 [rc, 0] =
      (1, [Effect.store 1, Effect.spawn rc, Effect.store 0, Effect.store 1, Effect.spawn 0]) := by
  have e : startServer 0 rc = (0, [Effect.store 1, Effect.spawn rc, Effect.store 0]) := by
    simp [startServer, hrc]
  refine ⟨e, ?_, ?_, ?_⟩
  · intro rc'
    rw [e]
    by_cases h : rc' = 0 <;> simp [startServer, h]
  · rw [e]; simp [startServer]
  · simp [startCalls, startServer, hrc]

/-- C5 at the `pthread_create` error code 11. -/
theorem C5_failed_launch_resets_flag_witness :
    startServer 0 11 = (0, [Effect.store 1, Effect.spawn 11, Effect.store 0]) :=
  (C5_failed_launch_resets_flag 11 (by decide)).1

/-- C7 fails as stated: one `startServer` call whose `pthread_create` fails
assigns `server_started` twice, the second time resetting it to zero. -/
theorem C7_flag_reset_on_failed_launch :
    flagStores (startCalls 0 [11]).2 = [1, 0] ∧ (startCalls 0 [11]).1 = 0 ∧
    ¬ (flagStores (startCalls 0 [11]).2 = [1]) := by
  decide

/-- C7 as amended: over every sequence of `startServer` calls, each call before
the first successful `pthread_create` sets `server_started` to one and resets it
to zero; the first call whose `pthread_create` succeeds sets it to one; after
that it is never assigned again.  So it is left at one by at most one call and
is never reset after that. -/
theorem C7_flag_set_once_after_failures (rcs : List Int) :
    flagStores (startCalls 0 rcs).2 =
        failedStores (rcs.takeWhile (fun rc => rc != 0)).length ++
          (if 0 ∈ rcs then [1] else []) ∧
    (startCalls 0 rcs).1 = (if 0 ∈ rcs then 1 else 0) := by
  induction rcs with
  | nil => simp [startCalls, flagStores, failedStores]
  | cons rc rcs ih =>
    by_cases hrc : rc = 0
    · subst hrc
      simp [startCalls, startServer, startCalls_started 1 (by decide) rcs, flagStores,
        failedStores]
    · have e : startCalls 0 (rc :: rcs) =
          ((startCalls 0 rcs).1,
            [Effect.store 1, Effect.spawn rc, Effect.store 0] ++ (startCalls 0 rcs).2) := by
        simp [startCalls, startServer, hrc]
      have hne : (0 : Int) ≠ rc := fun h => hrc h.symm
      rw [e, flagStores_append]
      simp only [ih.1, ih.2]
      simp [flagStores, failedStores, List.takeWhile_cons, hrc, hne]

/-! ## The accept loop and the buffer (claims C6, C8, C9, C10) -/

/-- C6: when the single `read` of a connection returns `n <= 0` (nothing arrived,
or an error), the server writes nothing to it and closes it, and the loop goes
on: after any earlier passes, the next connection with a non-empty read gets the
very answer it would get as a first connection. -/
theorem C6_empty_read_closed_unanswered (buffer : List Nat) (r : ReadOutcome)
    (hb : buffer.length = BUFFER_SIZE)
    (hn : (sysRead buffer (BUFFER_SIZE - 1) r).1 ≤ 0) :
    (serve buffer r).map Prod.snd = some [Action.close] ∧
    ∀ (pre : List Accept) (avail : List Nat), avail ≠ [] →
      ∃ out resp,
        server_loop ⟨true, true, true⟩ buffer pre = some out ∧
        (serve buffer (.bytes avail)).map Prod.snd = some [Action.write resp, Action.close] ∧
        server_loop ⟨true, true, true⟩ buffer (pre ++ [.conn r, .conn (.bytes avail)]) =
          some (out ++ [[Action.close], [Action.write resp, Action.close]]) := by
  have hr := read_nonpos buffer r hn
  refine ⟨by rw [serve_nothing buffer r hr]; rfl, ?_⟩
  intro pre avail ha
  obtain ⟨b1, out, hb1, _, h1⟩ := loopRun_defined pre buffer hb
  obtain ⟨b2, hb2, h2⟩ := serve_bytes b1 avail hb1 ha
  refine ⟨out, _, ?_, serve_response buffer avail hb ha, ?_⟩
  · simp [server_loop, h1]
  · simp [server_loop, loopRun_append, h1, loopRun, loopBody, serve_nothing b1 r hr, h2]

/-- C6 at the buffer of 1024 NULs and a peer that closed without sending. -/
theorem C6_empty_read_closed_unanswered_witness :
    (serve (List.replicate 1024 0) (.bytes [])).map Prod.snd = some [Action.close] :=
  (C6_empty_read_closed_unanswered (List.replicate 1024 0) (.bytes [])
    (List.length_replicate 1024 0) (by decide)).1

/-- C8: on every NUL-terminated text in the buffer, the two cuts of the code (at
the first line feed, then at the first carriage return of what is left) succeed
and leave exactly the longest prefix of the text that holds neither character:
a prefix of the text, free of both, that every such prefix is a prefix of; it is
the text itself when the text holds neither. -/
theorem C8_normalise_cuts_at_first_break (buffer : List Nat) (h0 : 0 ∈ buffer) :
    ∃ buffer', normalise buffer = some buffer' ∧
      cstr buffer' <+: cstr buffer ∧ 10 ∉ cstr buffer' ∧ 13 ∉ cstr buffer' ∧
      (∀ p : List Nat, p <+: cstr buffer → 10 ∉ p → 13 ∉ p → p <+: cstr buffer') ∧
      (10 ∉ cstr buffer → 13 ∉ cstr buffer → cstr buffer' = cstr buffer) := by
  obtain ⟨t, ht⟩ := mem_nul_split buffer h0
  obtain ⟨t', hn, _⟩ := normalise_terminated (cstr buffer) t (nul_not_mem_cstr buffer)
  rw [← ht] at hn
  have hmem : ∀ b ∈ (cstr buffer).takeWhile (fun b => b != 10 && b != 13),
      (b != 10 && b != 13) = true :=
    takeWhile_all (fun b => b != 10 && b != 13) (cstr buffer)
  have hc : cstr ((cstr buffer).takeWhile (fun b => b != 10 && b != 13) ++ 0 :: t') =
      (cstr buffer).takeWhile (fun b => b != 10 && b != 13) :=
    cstr_append_nul _ _ (fun h => nul_not_mem_cstr buffer ((List.takeWhile_prefix _).subset h))
  refine ⟨_, hn, ?_, ?_, ?_, ?_, ?_⟩
  · rw [hc]; exact List.takeWhile_prefix _
  · rw [hc]; intro h; simpa using hmem 10 h
  · rw [hc]; intro h; simpa using hmem 13 h
  · intro p hp h10 h13
    rw [hc]
    apply takeWhile_starts_with _ _ _ hp
    intro b hb
    have h1 : b ≠ 10 := fun h => h10 (h ▸ hb)
    have h2 : b ≠ 13 := fun h => h13 (h ▸ hb)
    simp [h1, h2]
  · intro h10 h13
    rw [hc]
    apply List.takeWhile_eq_self_iff.mpr
    intro b hb
    have h1 : b ≠ 10 := fun h => h10 (h ▸ hb)
    have h2 : b ≠ 13 := fun h => h13 (h ▸ hb)
    simp [h1, h2]

/-- C8 at the text `AB`, carriage return, line feed, `CD`. -/
theorem C8_normalise_cuts_at_first_break_witness :
    ∃ buffer', normalise [65, 66, 13, 10, 67, 68, 0] = some buffer' ∧
      cstr buffer' <+: cstr [65, 66, 13, 10, 67, 68, 0] ∧
      10 ∉ cstr buffer' ∧ 13 ∉ cstr buffer' ∧
      (∀ p : List Nat, p <+: cstr [65, 66, 13, 10, 67, 68, 0] → 10 ∉ p → 13 ∉ p →
        p <+: cstr buffer') ∧
      (10 ∉ cstr [65, 66, 13, 10, 67, 68, 0] → 13 ∉ cstr [65, 66, 13, 10, 67, 68, 0] →
        cstr buffer' = cstr [65, 66, 13, 10, 67, 68, 0]) :=
  C8_normalise_cuts_at_first_break [65, 66, 13, 10, 67, 68, 0] (by decide)

/-- C9: the response to a non-empty read does not depend on what the buffer held:
after any two histories of passes from any two initial buffer contents, the same
bytes read on the next connection get the same response; and `CRE` read right
after `CREATE|abc` is answered `ERROR|UNKNOWN`. -/
theorem C9_response_independent_of_history (buffer buffer' : List Nat)
    (hb : buffer.length = BUFFER_SIZE) (hb' : buffer'.length = BUFFER_SIZE) :
    (∀ (h h' : List Accept) (avail : List Nat), avail ≠ [] →
      ∃ out out' resp, out.length = h.length ∧ out'.length = h'.length ∧
        server_loop ⟨true, true, true⟩ buffer (h ++ [.conn (.bytes avail)]) =
          some (out ++ [[Action.write resp, Action.close]]) ∧
        server_loop ⟨true, true, true⟩ buffer' (h' ++ [.conn (.bytes avail)]) =
          some (out' ++ [[Action.write resp, Action.close]])) ∧
    server_loop ⟨true, true, true⟩ buffer
        [.conn (.bytes (lit "CREATE|abc")), .conn (.bytes (lit "CRE"))] =
      some [[Action.write (lit "OK|CREATE\n"), Action.close],
        [Action.write (lit "ERROR|UNKNOWN\n"), Action.close]] := by
  constructor
  · intro h h' avail ha
    obtain ⟨b1, out, hb1, hl, h1⟩ := loopRun_defined h buffer hb
    obtain ⟨b1', out', hb1', hl', h1'⟩ := loopRun_defined h' buffer' hb'
    obtain ⟨b2, _, h2⟩ := serve_bytes b1 avail hb1 ha
    obtain ⟨b2', _, h2'⟩ := serve_bytes b1' avail hb1' ha
    refine ⟨out, out', respond (firstLine (avail.take (BUFFER_SIZE - 1))), hl, hl', ?_, ?_⟩
    · simp [server_loop, loopRun_append, h1, loopRun, loopBody, h2]
    · simp [server_loop, loopRun_append, h1', loopRun, loopBody, h2']
  · obtain ⟨b1, hb1, h1⟩ := serve_bytes buffer (lit "CREATE|abc") hb (by decide)
    obtain ⟨b2, _, h2⟩ := serve_bytes b1 (lit "CRE") hb1 (by decide)
    have r1 : respond (firstLine ((lit "CREATE|abc").take (BUFFER_SIZE - 1))) =
        lit "OK|CREATE\n" := by decide
    have r2 : respond (firstLine ((lit "CRE").take (BUFFER_SIZE - 1))) =
        lit "ERROR|UNKNOWN\n" := by decide
    rw [r1] at h1
    rw [r2] at h2
    simp [server_loop, loopRun, loopBody, h1, h2]

/-- C9 at a buffer of 1024 NULs and one of 1024 bytes `C`, after no connection
and after a `CREATE|abc` connection, for the read `CRE`. -/
theorem C9_response_independent_of_history_witness :
    ∃ out out' resp, out.length = 0 ∧ out'.length = 1 ∧
      server_loop ⟨true, true, true⟩ (List.replicate 1024 0)
          ([] ++ [.conn (.bytes (lit "CRE"))]) =
        some (out ++ [[Action.write resp, Action.close]]) ∧
      server_loop ⟨true, true, true⟩ (List.replicate 1024 67)
          ([.conn (.bytes (lit "CREATE|abc"))] ++ [.conn (.bytes (lit "CRE"))]) =
        some (out' ++ [[Action.write resp, Action.close]]) :=
  (C9_response_independent_of_history (List.replicate 1024 0) (List.replicate 1024 67)
    (List.length_replicate 1024 0) (List.length_replicate 1024 67)).1
    [] [.conn (.bytes (lit "CREATE|abc"))] (lit "CRE") (by decide)

/-- C10: the terminator write is always in bounds.  From every 1024-byte buffer
`serve` is defined for every outcome of `read` (an access outside the array
would make it undefined), and so is the whole loop over any passes.  When bytes
arrived, the `read` result is `n = min 1023 (bytes arrived)`, so `1 <= n <= 1023`
and `n` is an index of the 1024-byte buffer; what is handed to normalisation is
the `n` bytes read, the NUL written at index `n`, and the old bytes from index
`n + 1` on; the buffer `serve` leaves still has that NUL at index `n` and the old
bytes after it; and the text handed to normalisation and the line handed to
matching are at most `n` bytes long. -/
theorem C10_terminator_write_in_bounds (buffer : List Nat)
    (hb : buffer.length = BUFFER_SIZE) :
    (∀ r : ReadOutcome, ∃ buffer' acts,
      serve buffer r = some (buffer', acts) ∧ buffer'.length = BUFFER_SIZE) ∧
    (∀ passes : List Accept, ∃ out,
      server_loop ⟨true, true, true⟩ buffer passes = some out ∧ out.length = passes.length) ∧
    (∀ avail : List Nat, avail ≠ [] →
      ∃ (n : Nat) (buffer' resp : List Nat),
        n = min 1023 avail.length ∧ 1 ≤ n ∧ n ≤ 1023 ∧ n < BUFFER_SIZE ∧
        serve buffer (.bytes avail) = some (buffer', [Action.write resp, Action.close]) ∧
        normalise (avail.take n ++ 0 :: buffer.drop (n + 1)) = some buffer' ∧
        (avail.take n ++ 0 :: buffer.drop (n + 1)).length = BUFFER_SIZE ∧
        buffer'.length = BUFFER_SIZE ∧
        buffer'.drop n = 0 :: buffer.drop (n + 1) ∧
        (cstr (avail.take n ++ 0 :: buffer.drop (n + 1))).length ≤ n ∧
        (cstr buffer').length ≤ n) := by
  refine ⟨?_, ?_, ?_⟩
  · intro r
    obtain ⟨b', acts, h1, h2⟩ := loopBody_defined buffer hb (.conn r)
    exact ⟨b', acts, h2, h1⟩
  · intro passes
    obtain ⟨b', out, _, hl, h⟩ := loopRun_defined passes buffer hb
    exact ⟨out, by simp [server_loop, h], hl⟩
  · intro avail ha
    obtain ⟨k, t, hk1, hk2, hr, ht, hlen, hd, hk, htt⟩ := terminate_read buffer avail hb ha
    subst htt
    have htake : avail.take k = avail.take (BUFFER_SIZE - 1) := by
      rw [hk]; simp [List.take_eq_take]
    obtain ⟨d', hn', hd'⟩ :=
      normalise_keeps_tail (avail.take (BUFFER_SIZE - 1)) (buffer.drop (k + 1))
    obtain ⟨t1, hs⟩ := split_at_nul (avail.take (BUFFER_SIZE - 1)) (buffer.drop (k + 1))
    obtain ⟨t2, hn2, _⟩ := normalise_terminated
      ((avail.take (BUFFER_SIZE - 1)).takeWhile (fun b => b != 0)) t1 (not_mem_takeWhile_ne 0 _)
    rw [← hs] at hn2
    have heq : d' ++ 0 :: buffer.drop (k + 1) =
        ((avail.take (BUFFER_SIZE - 1)).takeWhile (fun b => b != 0)).takeWhile
          (fun b => b != 10 && b != 13) ++ 0 :: t2 :=
      Option.some.inj (hn'.symm.trans hn2)
    have hdisp : dispatch (d' ++ 0 :: buffer.drop (k + 1)) =
        some (Action.write (respond
          (((avail.take (BUFFER_SIZE - 1)).takeWhile (fun b => b != 0)).takeWhile
            (fun b => b != 10 && b != 13)))) := by
      rw [heq]; exact dispatch_terminated _ _
    have hc1 : cstr (avail.take (BUFFER_SIZE - 1) ++ 0 :: buffer.drop (k + 1)) =
        (avail.take (BUFFER_SIZE - 1)).takeWhile (fun b => b != 0) := by
      rw [hs]; exact cstr_append_nul _ _ (not_mem_takeWhile_ne 0 _)
    have hc2 : cstr (d' ++ 0 :: buffer.drop (k + 1)) =
        ((avail.take (BUFFER_SIZE - 1)).takeWhile (fun b => b != 0)).takeWhile
          (fun b => b != 10 && b != 13) := by
      rw [heq]
      exact cstr_append_nul _ _
        (fun h => not_mem_takeWhile_ne 0 _ ((List.takeWhile_prefix _).subset h))
    have l1 : ((avail.take (BUFFER_SIZE - 1)).takeWhile (fun b => b != 0)).length ≤ k := by
      rw [← hd]; exact (List.takeWhile_prefix _).length_le
    have l2 : (((avail.take (BUFFER_SIZE - 1)).takeWhile (fun b => b != 0)).takeWhile
        (fun b => b != 10 && b != 13)).length ≤ k :=
      Nat.le_trans (List.takeWhile_prefix _).length_le l1
    have hk3 : k ≤ 1023 := by simpa [BUFFER_SIZE] using hk2
    have hlen' : (d' ++ 0 :: buffer.drop (k + 1)).length = BUFFER_SIZE := by
      rw [← hlen]; simp [hd']
    have hk4 : k < BUFFER_SIZE := by simp only [BUFFER_SIZE]; omega
    refine ⟨k, d' ++ 0 :: buffer.drop (k + 1),
      respond (((avail.take (BUFFER_SIZE - 1)).takeWhile (fun b => b != 0)).takeWhile
        (fun b => b != 10 && b != 13)),
      by simpa [BUFFER_SIZE] using hk, hk1, hk3, hk4, ?_, ?_, ?_, hlen', ?_, ?_, ?_⟩
    · unfold serve
      rw [hr]
      have hpos : ¬ ((k : Int) ≤ 0) := by omega
      simp only [hpos, if_false, ht, hn', hdisp, Option.bind_eq_bind, Option.some_bind]
      rfl
    · rw [htake]; exact hn'
    · rw [htake]; exact hlen
    · exact List.drop_left' (hd'.trans hd)
    · rw [htake, hc1]; exact l1
    · rw [hc2]; exact l2

/-- C10 at the buffer of 1024 NULs and a peer that sent 2000 bytes `A`: the
service is defined and the terminator is at index 1023. -/
theorem C10_terminator_write_in_bounds_witness :
    ∃ (n : Nat) (buffer' resp : List Nat),
      n = min 1023 (List.replicate 2000 65).length ∧ 1 ≤ n ∧ n ≤ 1023 ∧ n < BUFFER_SIZE ∧
      serve (List.replicate 1024 0) (.bytes (List.replicate 2000 65)) =
        some (buffer', [Action.write resp, Action.close]) ∧
      normalise ((List.replicate 2000 65).take n ++ 0 :: (List.replicate 1024 0).drop (n + 1)) =
        some buffer' ∧
      ((List.replicate 2000 65).take n ++ 0 :: (List.replicate 1024 0).drop (n + 1)).length =
        BUFFER_SIZE ∧
      buffer'.length = BUFFER_SIZE ∧
      buffer'.drop n = 0 :: (List.replicate 1024 0).drop (n + 1) ∧
      (cstr ((List.replicate 2000 65).take n ++
        0 :: (List.replicate 1024 0).drop (n + 1))).length ≤ n ∧
      (cstr buffer').length ≤ n :=
  (C10_terminator_write_in_bounds (List.replicate 1024 0) (List.length_replicate 1024 0)).2.2
    (List.replicate 2000 65) (by rw [List.replicate_succ]; exact List.cons_ne_nil _ _)

end NativeServer
